import Mathlib

/-!
Shallow embedding of the `wasmgame-contracts` CosmWasm contract
(`src/contract.rs`, `src/state.rs`, `src/msg.rs`, `src/error.rs`).

Bytes are modelled as `Nat` values below 256, 32-bit words as `Nat` values
reduced modulo `2 ^ 32`, and the chain's `Uint128`/`u64` integers as `Nat`
with explicit overflow checks where the Rust code would panic (CosmWasm
builds with `overflow-checks = true`, and a panic aborts the whole call
with no state change, exactly like a returned error).
-/

namespace Wasmgame

/-! ## SHA-256 (FIPS 180-4), as used by the `sha2` crate in `contract.rs` -/

/-- 2 ^ 32, the modulus for 32-bit words. -/
def M32 : Nat := 4294967296

/-- Right rotation of a 32-bit word. -/
def rotr32 (n x : Nat) : Nat :=
  (x >>> n) ||| ((x <<< (32 - n)) % M32)

/-- Bitwise complement on 32 bits. -/
def not32 (x : Nat) : Nat := Nat.xor x (M32 - 1)

/-- Small-sigma-0 message schedule function. -/
def ssig0 (x : Nat) : Nat :=
  Nat.xor (rotr32 7 x) (Nat.xor (rotr32 18 x) (x >>> 3))

/-- Small-sigma-1 message schedule function. -/
def ssig1 (x : Nat) : Nat :=
  Nat.xor (rotr32 17 x) (Nat.xor (rotr32 19 x) (x >>> 10))

/-- Big-sigma-0 compression function. -/
def bsig0 (x : Nat) : Nat :=
  Nat.xor (rotr32 2 x) (Nat.xor (rotr32 13 x) (rotr32 22 x))

/-- Big-sigma-1 compression function. -/
def bsig1 (x : Nat) : Nat :=
  Nat.xor (rotr32 6 x) (Nat.xor (rotr32 11 x) (rotr32 25 x))

/-- The `Ch` function of SHA-256. -/
def chf (e f g : Nat) : Nat :=
  Nat.xor (Nat.land e f) (Nat.land (not32 e) g)

/-- The `Maj` function of SHA-256. -/
def majf (a b c : Nat) : Nat :=
  Nat.xor (Nat.land a b) (Nat.xor (Nat.land a c) (Nat.land b c))

/-- The 64 SHA-256 round constants, written in decimal. -/
def shaK : List Nat :=
  [1116352408, 1899447441, 3049323471, 3921009573, 961987163,
   1508970993, 2453635748, 2870763221, 3624381080, 310598401,
   607225278, 1426881987, 1925078388, 2162078206, 2614888103,
   3248222580, 3835390401, 4022224774, 264347078, 604807628,
   770255983, 1249150122, 1555081692, 1996064986, 2554220882,
   2821834349, 2952996808, 3210313671, 3336571891, 3584528711,
   113926993, 338241895, 666307205, 773529912, 1294757372,
   1396182291, 1695183700, 1986661051, 2177026350, 2456956037,
   2730485921, 2820302411, 3259730800, 3345764771, 3516065817,
   3600352804, 4094571909, 275423344, 430227734, 506948616,
   659060556, 883997877, 958139571, 1322822218, 1537002063,
   1747873779, 1955562222, 2024104815, 2227730452, 2361852424,
   2428436474, 2756734187, 3204031479, 3329325298]

/-- The initial SHA-256 hash state, written in decimal. -/
def shaH0 : List Nat :=
  [1779033703, 3144134277, 1013904242, 2773480762,
   1359893119, 2600822924, 528734635, 1541459225]

/-- Group a list of bytes, four at a time, into big-endian 32-bit words. -/
def bytesToWords : List Nat → List Nat
  | b0 :: b1 :: b2 :: b3 :: rest =>
      (((b0 * 256 + b1) * 256 + b2) * 256 + b3) :: bytesToWords rest
  | _ => []

/-- Split a 32-bit word into four big-endian bytes. -/
def wordToBytes (w : Nat) : List Nat :=
  [w / 16777216 % 256, w / 65536 % 256, w / 256 % 256, w % 256]

/-- Extend the (reversed, newest-first) message schedule by `n` words. -/
def extendSched : Nat → List Nat → List Nat
  | 0, rw => rw
  | n + 1, rw =>
      let v := (rw.getD 15 0 + ssig0 (rw.getD 14 0) + rw.getD 6 0
                + ssig1 (rw.getD 1 0)) % M32
      extendSched n (v :: rw)

/-- One SHA-256 compression round, acting on the eight-word working state. -/
def compressStep (st : List Nat) (kw : Nat × Nat) : List Nat :=
  match st with
  | [a, b, c, d, e, f, g, h] =>
      let t1 := (h + bsig1 e + chf e f g + kw.1 + kw.2) % M32
      let t2 := (bsig0 a + majf a b c) % M32
      [(t1 + t2) % M32, a, b, c, (d + t1) % M32, e, f, g]
  | other => other

/-- Process one padded 64-byte block, updating the eight-word hash state. -/
def processBlock (h : List Nat) (block : List Nat) : List Nat :=
  let w16 := bytesToWords block
  let w := (extendSched 48 w16.reverse).reverse
  let st := (shaK.zip w).foldl compressStep h
  (h.zip st).map (fun p => (p.1 + p.2) % M32)

/-- SHA-256 padding: append `0x80`, zeros, and the 64-bit big-endian bit length. -/
def shaPad (msg : List Nat) : List Nat :=
  let len := msg.length
  let bitLen := (len * 8) % (2 ^ 64)
  let padZeros := (64 - ((len + 9) % 64)) % 64
  msg ++ (0x80 :: List.replicate padZeros 0)
      ++ [bitLen / 2 ^ 56 % 256, bitLen / 2 ^ 48 % 256, bitLen / 2 ^ 40 % 256,
          bitLen / 2 ^ 32 % 256, bitLen / 2 ^ 24 % 256, bitLen / 2 ^ 16 % 256,
          bitLen / 2 ^ 8 % 256, bitLen % 256]

/-- Split a byte list into 64-byte blocks (fuel-based for structural recursion). -/
def toBlocksF : Nat → List Nat → List (List Nat)
  | 0, _ => []
  | _ + 1, [] => []
  | n + 1, l => l.take 64 :: toBlocksF n (l.drop 64)

/-- SHA-256 of a byte list, producing the 32 digest bytes. -/
def sha256 (msg : List Nat) : List Nat :=
  let padded := shaPad msg
  let blocks := toBlocksF padded.length padded
  ((blocks.foldl processBlock shaH0).map wordToBytes).flatten

/-! ## Hex decoding (the `hex` crate's `decode_to_slice` into a 32-byte buffer) -/

/-- Value of one hexadecimal digit, accepting both cases like the `hex` crate. -/
def hexVal (c : Char) : Option Nat :=
  if '0' ≤ c ∧ c ≤ '9' then some (c.toNat - '0'.toNat)
  else if 'a' ≤ c ∧ c ≤ 'f' then some (c.toNat - 'a'.toNat + 10)
  else if 'A' ≤ c ∧ c ≤ 'F' then some (c.toNat - 'A'.toNat + 10)
  else none

/-- Decode a list of hex characters, two per byte. -/
def hexPairs : List Char → Option (List Nat)
  | [] => some []
  | c1 :: c2 :: rest =>
      match hexVal c1, hexVal c2, hexPairs rest with
      | some h, some l, some bs => some ((h * 16 + l) :: bs)
      | _, _, _ => none
  | [_] => none

/-- `hex::decode_to_slice` into a fixed `[u8; 32]` buffer: the string must
be exactly 64 hex characters. -/
def hexDecode32 (s : String) : Option (List Nat) :=
  if s.length = 64 then hexPairs s.data else none

/-! ## UTF-8 bytes of a string (Rust's `str::as_bytes`) -/

/-- Standard UTF-8 encoding of one character. -/
def utf8Char (c : Char) : List Nat :=
  let n := c.toNat
  if n < 0x80 then [n]
  else if n < 0x800 then [0xC0 + n / 64, 0x80 + n % 64]
  else if n < 0x10000 then
    [0xE0 + n / 4096, 0x80 + n / 64 % 64, 0x80 + n % 64]
  else
    [0xF0 + n / 262144, 0x80 + n / 4096 % 64, 0x80 + n / 64 % 64, 0x80 + n % 64]

/-- UTF-8 bytes of a string. -/
def strBytes (s : String) : List Nat :=
  (s.data.map utf8Char).flatten

/-! ## Lexicographic comparison and sorted-pair concatenation
(`hashes.sort_unstable()` on a two-element array of `[u8; 32]` in
`execute_claim_airdrop`; Rust array `Ord` is lexicographic). -/

/-- Lexicographic `≤` on byte lists (Rust `[u8; 32]` ordering). -/
def bytesLe : List Nat → List Nat → Bool
  | [], _ => true
  | _ :: _, [] => false
  | a :: as_, b :: bs =>
      if a < b then true else if b < a then false else bytesLe as_ bs

/-- Concatenation of two 32-byte values in sorted order, as produced by
`sort_unstable` then `concat` on the two-element array `[hash, proof_buf]`. -/
def sortConcat (a b : List Nat) : List Nat :=
  if bytesLe a b then a ++ b else b ++ a

/-! ## Chain data model (`cosmwasm_std` / `cw_utils` types used by `state.rs`) -/

/-- Addresses are strings; `deps.api.addr_validate` is modelled as always
succeeding (the mock API of the repository's own tests), since no claim
depends on bech32 well-formedness. -/
abbrev Addr := String

/-- `cosmwasm_std::Coin`; the `Uint128` amount is a `Nat` kept below `2 ^ 128`
by the checked arithmetic below. -/
structure Coin where
  denom : String
  amount : Nat
deriving DecidableEq, Repr

/-- `cw_utils::Scheduled`: a block height or a timestamp in nanoseconds. -/
inductive Scheduled where
  | atHeight : Nat → Scheduled
  | atTime : Nat → Scheduled
deriving DecidableEq, Repr

/-- `cw_utils::Duration`: a number of blocks or of seconds. -/
inductive Duration where
  | height : Nat → Duration
  | time : Nat → Duration
deriving DecidableEq, Repr

/-- `state.rs` `Stage`: a start event and a duration. -/
structure Stage where
  start : Scheduled
  duration : Duration
deriving DecidableEq, Repr

/-- The block marker of `Env`: height, and time in nanoseconds. -/
structure BlockData where
  height : Nat
  time : Nat
deriving DecidableEq, Repr

/-- `cosmwasm_std::Env`, reduced to the block data the contract reads. -/
structure Env where
  block : BlockData
deriving DecidableEq, Repr

/-- `cosmwasm_std::MessageInfo`: the sender and the funds attached. -/
structure MessageInfo where
  sender : Addr
  funds : List Coin
deriving DecidableEq, Repr

/-- `error.rs` `ContractError`. Hex-decode failures (`FromHexError`, all
variants) are folded into `.hexErr`; `StdError` results (missing storage item,
mixed height/time stage arithmetic) into `.std`; a Rust integer overflow or
underflow panic or an `unwrap` of `None` aborts the call with no state write,
which the embedding renders as the `.panic` error. -/
inductive ContractError where
  | std : String → ContractError
  | hexErr : ContractError
  | unauthorized : ContractError
  | invalidInput : ContractError
  | alreadyClaimed : ContractError
  | wrongLength : ContractError
  | verificationFailed : String → ContractError
  | noteEligible : ContractError
  | claimPrizeStageNotFinished : ContractError
  | stageNotStarted : String → ContractError
  | stageEnded : String → ContractError
  | stagesOverlap : String → String → ContractError
  | bidStartPassed : ContractError
  | ticketPriceNotPaid : ContractError
  | cannotBidMoreThanOnce : ContractError
  | bidNotPresent : ContractError
  | insufficientFunds : ContractError
  | binDoesNotExist : Nat → ContractError
  | panic : ContractError
deriving DecidableEq, Repr

/-- Checked `u64` addition (Rust panics on overflow). -/
def add64 (a b : Nat) : Except ContractError Nat :=
  if a + b < 2 ^ 64 then .ok (a + b) else .error .panic

/-- Checked `u64` multiplication (Rust panics on overflow). -/
def mul64 (a b : Nat) : Except ContractError Nat :=
  if a * b < 2 ^ 64 then .ok (a * b) else .error .panic

/-- Checked `Uint128` addition (`cosmwasm_std` panics on overflow). -/
def add128 (a b : Nat) : Except ContractError Nat :=
  if a + b < 2 ^ 128 then .ok (a + b) else .error .panic

/-- Checked `Uint128` subtraction (`cosmwasm_std` panics on underflow). -/
def sub128 (a b : Nat) : Except ContractError Nat :=
  if b ≤ a then .ok (a - b) else .error .panic

/-- `Uint128::checked_div(..).unwrap()`: panics when the divisor is zero,
otherwise truncating division. -/
def divUnwrap (a b : Nat) : Except ContractError Nat :=
  if b = 0 then .error .panic else .ok (a / b)

/-- `Scheduled + Duration` from `cw_utils`: heights add block counts,
timestamps add seconds converted to nanoseconds, and mixing the two kinds is
a `StdError`. -/
def scheduledAdd (s : Scheduled) (d : Duration) : Except ContractError Scheduled :=
  match s, d with
  | .atHeight h, .height dh => (add64 h dh).map .atHeight
  | .atTime t, .time dt =>
      match mul64 dt 1000000000 with
      | .error e => .error e
      | .ok nanos => (add64 t nanos).map .atTime
  | _, _ => .error (.std "Cannot add height and time")

/-- `Scheduled::is_triggered`: the block has reached the scheduled event. -/
def isTriggered (s : Scheduled) (b : BlockData) : Bool :=
  match s with
  | .atHeight h => decide (h ≤ b.height)
  | .atTime t => decide (t ≤ b.time)

/-- `Scheduled`'s partial order, as in `cw_utils`: two heights or two times
compare numerically, a height and a time are incomparable (so `a > b` is
`false` for mixed kinds). -/
def scheduledGt (a b : Scheduled) : Bool :=
  match a, b with
  | .atHeight x, .atHeight y => decide (y < x)
  | .atTime x, .atTime y => decide (y < x)
  | _, _ => false

/-! ## Storage model

`cw_storage_plus` `Item`s that may be unset are `Option`s (loading an unset
item is a `StdError`); `Map`s are association lists with at most one entry
per key. -/

/-- A `cw_storage_plus::Map<&Addr, β>`. -/
abbrev StoreMap (β : Type) := List (Addr × β)

/-- `Map::may_load`: the value stored at a key, if any. -/
def mGet (m : StoreMap β) (k : Addr) : Option β :=
  (m.find? (fun p => p.1 == k)).map Prod.snd

/-- `Map::has`. -/
def mHas (m : StoreMap β) (k : Addr) : Bool :=
  (mGet m k).isSome

/-- `Map::remove`. -/
def mRemove (m : StoreMap β) (k : Addr) : StoreMap β :=
  m.filter (fun p => !(p.1 == k))

/-- `Map::save` (insert or overwrite). -/
def mSet (m : StoreMap β) (k : Addr) (v : β) : StoreMap β :=
  (k, v) :: mRemove m k

/-- `Item::load` of a possibly-unset item: a `StdError` when absent. -/
def loadItem (o : Option α) : Except ContractError α :=
  match o with
  | some v => .ok v
  | none => .error (.std "not found")

/-- `state.rs` `Config`. -/
structure Config where
  owner : Option Addr
  cw20TokenAddress : Addr
deriving DecidableEq, Repr

/-- The whole persistent storage of the contract after instantiation
(`state.rs`): one field per `Item`/`Map` declared there. Items first written
by `execute_register_merkle_roots` are `Option`s, unset until registration. -/
structure ContractState where
  config : Config
  stageBid : Stage
  stageClaimAirdrop : Stage
  stageClaimPrize : Stage
  ticketPrice : Coin
  bins : Nat
  winners : Nat
  totalTicketPrize : Nat
  merkleRootAirdrop : Option String
  merkleRootGame : Option String
  totalAirdropAmount : Option Nat
  totalAirdropGameAmount : Option Nat
  claimedAirdropAmount : Option Nat
  claimedPrizeAmount : Option Nat
  bids : StoreMap Nat
  claimAirdrop : StoreMap Bool
  claimPrize : StoreMap Bool
deriving DecidableEq, Repr

/-- The transfer instructions the contract emits: a native bank send or a
cw20 `Transfer` execute message (attributes are not modelled; no claim
mentions them). -/
inductive CosmosMsg where
  | bankSend (toAddress : Addr) (denom : String) (amount : Nat)
  | cw20Transfer (contractAddr : Addr) (recipient : Addr) (amount : Nat)
deriving DecidableEq, Repr

/-- The result type of every entry point: an error (or panic) leaves the
state untouched; success yields the new state and the emitted transfers. -/
abbrev ExecResult := Except ContractError (ContractState × List CosmosMsg)

/-! ## Entry points (`contract.rs`) -/

/-- `msg.rs` `InstantiateMsg`. -/
structure InstantiateMsg where
  owner : Option String
  cw20TokenAddress : String
  ticketPrice : Coin
  bins : Nat
  stageBid : Stage
  stageClaimAirdrop : Stage
  stageClaimPrize : Stage
deriving DecidableEq, Repr

/-- `check_if_valid_stage` in `contract.rs`: the stage must have started and
not yet ended. -/
def checkIfValidStage (env : Env) (stage : Stage) (stageName : String) :
    Except ContractError Unit :=
  if !(isTriggered stage.start env.block) then .error (.stageNotStarted stageName)
  else
    match scheduledAdd stage.start stage.duration with
    | .error e => .error e
    | .ok stageEnd =>
        if isTriggered stageEnd env.block then .error (.stageEnded stageName)
        else .ok ()

/-- `get_amount_for_denom`: left fold of the `Uint128` sum of the amounts in
the matching denomination (the `Sum` impl panics on overflow). -/
def sumAmounts (denom : String) : List Coin → Nat → Except ContractError Nat
  | [], acc => .ok acc
  | c :: cs, acc =>
      if c.denom == denom then
        match add128 acc c.amount with
        | .error e => .error e
        | .ok acc2 => sumAmounts denom cs acc2
      else sumAmounts denom cs acc

/-- `get_amount_for_denom` in `contract.rs`. -/
def getAmountForDenom (coins : List Coin) (denom : String) :
    Except ContractError Coin :=
  (sumAmounts denom coins 0).map (fun a => { denom := denom, amount := a })

/-- `hex::decode_to_slice` of a root or proof element into `[u8; 32]`. -/
def hexToBytes32 (s : String) : Except ContractError (List Nat) :=
  match hexDecode32 s with
  | some b => .ok b
  | none => .error .hexErr

/-- The `try_fold` over proof elements in `execute_claim_airdrop`: hex-decode
each element, pair it with the running hash sorted lexicographically, and
hash the concatenation. (The digest `try_into` never fails, so the
`WrongLength` arm is unreachable and not modelled.) -/
def foldProofs (hash : List Nat) : List String → Except ContractError (List Nat)
  | [] => .ok hash
  | p :: ps =>
      match hexToBytes32 p with
      | .error e => .error e
      | .ok buf => foldProofs (sha256 (sortConcat hash buf)) ps

/-- `instantiate` in `contract.rs` (the `cw2::set_contract_version` call only
touches the version item, which no claim mentions). -/
def instantiate (env : Env) (info : MessageInfo) (msg : InstantiateMsg) :
    Except ContractError ContractState :=
  let owner := match msg.owner with
    | none => info.sender
    | some o => o
  let config : Config :=
    { owner := some owner, cw20TokenAddress := msg.cw20TokenAddress }
  match scheduledAdd msg.stageBid.start msg.stageBid.duration with
  | .error e => .error e
  | .ok stageBidEnd =>
  match scheduledAdd msg.stageClaimAirdrop.start msg.stageClaimAirdrop.duration with
  | .error e => .error e
  | .ok stageClaimAirdropEnd =>
  if isTriggered msg.stageBid.start env.block then .error .bidStartPassed
  else if scheduledGt stageBidEnd msg.stageClaimAirdrop.start then
    .error (.stagesOverlap "bid" "Claim airdrop")
  else if scheduledGt stageClaimAirdropEnd msg.stageClaimPrize.start then
    .error (.stagesOverlap "claim aidrop" "Claim prize")
  else .ok
    { config := config
      stageBid := msg.stageBid
      stageClaimAirdrop := msg.stageClaimAirdrop
      stageClaimPrize := msg.stageClaimPrize
      ticketPrice := msg.ticketPrice
      bins := msg.bins
      winners := 0
      totalTicketPrize := 0
      merkleRootAirdrop := none
      merkleRootGame := none
      totalAirdropAmount := none
      totalAirdropGameAmount := none
      claimedAirdropAmount := none
      claimedPrizeAmount := none
      bids := []
      claimAirdrop := []
      claimPrize := [] }

/-- `execute_update_config`. -/
def executeUpdateConfig (_env : Env) (info : MessageInfo)
    (newOwner : Option String) (s : ContractState) : ExecResult :=
  match s.config.owner with
  | none => .error .unauthorized
  | some owner =>
      if info.sender ≠ owner then .error .unauthorized
      else
        let tmpOwner : Option Addr := newOwner
        .ok ({ s with config := { s.config with owner := tmpOwner } }, [])

/-- `execute_bid`. -/
def executeBid (env : Env) (info : MessageInfo) (bin : Nat)
    (s : ContractState) : ExecResult :=
  match checkIfValidStage env s.stageBid "bid" with
  | .error e => .error e
  | .ok _ =>
  let ticketPrice := s.ticketPrice
  if mHas s.bids info.sender then .error .cannotBidMoreThanOnce
  else
  match getAmountForDenom info.funds ticketPrice.denom with
  | .error e => .error e
  | .ok fundsSent =>
  if fundsSent.amount < ticketPrice.amount then .error .ticketPriceNotPaid
  else if s.bins < bin then .error (.binDoesNotExist s.bins)
  else
    let transferMsg : List CosmosMsg :=
      if ticketPrice.amount < fundsSent.amount then
        [.bankSend info.sender fundsSent.denom (fundsSent.amount - ticketPrice.amount)]
      else []
    match add128 s.totalTicketPrize ticketPrice.amount with
    | .error e => .error e
    | .ok newTotal =>
        .ok ({ s with bids := mSet s.bids info.sender bin,
                      totalTicketPrize := newTotal }, transferMsg)

/-- `execute_change_bid`. -/
def executeChangeBid (env : Env) (info : MessageInfo) (bin : Nat)
    (s : ContractState) : ExecResult :=
  match checkIfValidStage env s.stageBid "bid" with
  | .error e => .error e
  | .ok _ =>
  if !(mHas s.bids info.sender) then .error .bidNotPresent
  else .ok ({ s with bids := mSet s.bids info.sender bin }, [])

/-- `execute_remove_bid`. -/
def executeRemoveBid (env : Env) (info : MessageInfo)
    (s : ContractState) : ExecResult :=
  match checkIfValidStage env s.stageBid "bid" with
  | .error e => .error e
  | .ok _ =>
  if !(mHas s.bids info.sender) then .error .bidNotPresent
  else
    let ticketPrice := s.ticketPrice
    match sub128 s.totalTicketPrize ticketPrice.amount with
    | .error e => .error e
    | .ok newTotal =>
        .ok ({ s with bids := mRemove s.bids info.sender,
                      totalTicketPrize := newTotal },
             [.bankSend info.sender ticketPrice.denom ticketPrice.amount])

/-- `execute_register_merkle_roots`. -/
def executeRegisterMerkleRoots (_env : Env) (info : MessageInfo)
    (merkleRootAirdrop : String) (totalAmountAirdrop : Option Nat)
    (merkleRootGame : String) (totalAmountGame : Option Nat)
    (s : ContractState) : ExecResult :=
  match s.config.owner with
  | none => .error .unauthorized
  | some owner =>
  if info.sender ≠ owner then .error .unauthorized
  else
  match hexToBytes32 merkleRootAirdrop with
  | .error e => .error e
  | .ok _ =>
  match hexToBytes32 merkleRootGame with
  | .error e => .error e
  | .ok _ =>
    let amountAirdrop := totalAmountAirdrop.getD 0
    let amountGame := totalAmountGame.getD 0
    .ok ({ s with merkleRootAirdrop := some merkleRootAirdrop,
                  merkleRootGame := some merkleRootGame,
                  totalAirdropAmount := some amountAirdrop,
                  totalAirdropGameAmount := some amountGame,
                  claimedAirdropAmount := some 0,
                  claimedPrizeAmount := some 0 }, [])

/-- The winner-detection block of `execute_claim_airdrop` (lines 390–425):
when the sender has a live bid, verify the game proof with leaf
`sender ++ decimal(bin)` and, on success, record an unpaid prize-claim entry
and increment the winners counter; a non-matching root is not an error. -/
def claimAirdropGame (info : MessageInfo) (proofGame : List String)
    (merkleRootGame : String) (s : ContractState) :
    Except ContractError (StoreMap Bool × Nat) :=
  match mGet s.bids info.sender with
  | none => .ok (s.claimPrize, s.winners)
  | some senderBid =>
      let hash0 := sha256 (strBytes (info.sender ++ Nat.repr senderBid))
      match foldProofs hash0 proofGame with
      | .error e => .error e
      | .ok hash =>
      match hexToBytes32 merkleRootGame with
      | .error e => .error e
      | .ok rootBuf =>
          if rootBuf = hash then
            match add128 s.winners 1 with
            | .error e => .error e
            | .ok w => .ok (mSet s.claimPrize info.sender false, w)
          else .ok (s.claimPrize, s.winners)

/-- `execute_claim_airdrop`. -/
def executeClaimAirdrop (env : Env) (info : MessageInfo) (amount : Nat)
    (proofAirdrop proofGame : List String) (s : ContractState) : ExecResult :=
  match checkIfValidStage env s.stageClaimAirdrop "claim airdrop" with
  | .error e => .error e
  | .ok _ =>
  if (mGet s.claimAirdrop info.sender).isSome then .error .alreadyClaimed
  else
  let cfg := s.config
  match loadItem s.merkleRootAirdrop with
  | .error e => .error e
  | .ok merkleRootAirdrop =>
  match loadItem s.merkleRootGame with
  | .error e => .error e
  | .ok merkleRootGame =>
  let hash0 := sha256 (strBytes (info.sender ++ Nat.repr amount))
  match foldProofs hash0 proofAirdrop with
  | .error e => .error e
  | .ok hash =>
  match hexToBytes32 merkleRootAirdrop with
  | .error e => .error e
  | .ok rootBuf =>
  if rootBuf ≠ hash then .error (.verificationFailed "airdrop")
  else
  match claimAirdropGame info proofGame merkleRootGame s with
  | .error e => .error e
  | .ok (claimPrizeNew, winnersNew) =>
  match loadItem s.claimedAirdropAmount with
  | .error e => .error e
  | .ok claimedOld =>
  match add128 claimedOld amount with
  | .error e => .error e
  | .ok claimedNew =>
      .ok ({ s with claimPrize := claimPrizeNew,
                    winners := winnersNew,
                    claimAirdrop := mSet s.claimAirdrop info.sender true,
                    claimedAirdropAmount := some claimedNew },
           [.cw20Transfer cfg.cw20TokenAddress info.sender amount])

/-- `execute_claim_prize`. -/
def executeClaimPrize (env : Env) (info : MessageInfo)
    (s : ContractState) : ExecResult :=
  match checkIfValidStage env s.stageClaimPrize "claim prize" with
  | .error e => .error e
  | .ok _ =>
  match mGet s.claimPrize info.sender with
  | some true => .error .alreadyClaimed
  | none => .error .noteEligible
  | some false =>
  let cfg := s.config
  let winners := s.winners
  let ticketPrice := s.ticketPrice
  let ticketPrize := s.totalTicketPrize
  match loadItem s.totalAirdropGameAmount with
  | .error e => .error e
  | .ok airdropPrize =>
  match divUnwrap ticketPrize winners with
  | .error e => .error e
  | .ok senderTicketPrize =>
  match divUnwrap airdropPrize winners with
  | .error e => .error e
  | .ok senderAirdropPrize =>
  match loadItem s.claimedAirdropAmount with
  | .error e => .error e
  | .ok claimedA =>
  match add128 claimedA senderAirdropPrize with
  | .error e => .error e
  | .ok claimedANew =>
  match loadItem s.claimedPrizeAmount with
  | .error e => .error e
  | .ok claimedP =>
  match add128 claimedP senderTicketPrize with
  | .error e => .error e
  | .ok claimedPNew =>
      .ok ({ s with claimPrize := mSet s.claimPrize info.sender true,
                    claimedAirdropAmount := some claimedANew,
                    claimedPrizeAmount := some claimedPNew },
           [.bankSend info.sender ticketPrice.denom senderTicketPrize,
            .cw20Transfer cfg.cw20TokenAddress info.sender senderAirdropPrize])

/-- `execute_withdraw_airdrop`. -/
def executeWithdrawAirdrop (env : Env) (info : MessageInfo) (address : Addr)
    (s : ContractState) : ExecResult :=
  match s.config.owner with
  | none => .error .unauthorized
  | some owner =>
  if info.sender ≠ owner then .error .unauthorized
  else
  match scheduledAdd s.stageClaimPrize.start s.stageClaimPrize.duration with
  | .error e => .error e
  | .ok stageClaimPrizeEnd =>
  if !(isTriggered stageClaimPrizeEnd env.block) then
    .error .claimPrizeStageNotFinished
  else
  match loadItem s.totalAirdropAmount with
  | .error e => .error e
  | .ok totalAmountAirdrop =>
  match loadItem s.totalAirdropGameAmount with
  | .error e => .error e
  | .ok totalAmountPrize =>
  match loadItem s.claimedAirdropAmount with
  | .error e => .error e
  | .ok claimedAmount =>
  match add128 totalAmountAirdrop totalAmountPrize with
  | .error e => .error e
  | .ok committed =>
  match sub128 committed claimedAmount with
  | .error e => .error e
  | .ok amount =>
      .ok (s, [.cw20Transfer s.config.cw20TokenAddress address amount])

/-- `execute_withdraw_prize`. -/
def executeWithdrawPrize (env : Env) (info : MessageInfo) (address : Addr)
    (s : ContractState) : ExecResult :=
  match s.config.owner with
  | none => .error .unauthorized
  | some owner =>
  if info.sender ≠ owner then .error .unauthorized
  else
  match scheduledAdd s.stageClaimPrize.start s.stageClaimPrize.duration with
  | .error e => .error e
  | .ok stageClaimPrizeEnd =>
  if !(isTriggered stageClaimPrizeEnd env.block) then
    .error .claimPrizeStageNotFinished
  else
  let totalPrize := s.totalTicketPrize
  match loadItem s.claimedPrizeAmount with
  | .error e => .error e
  | .ok claimedPrize =>
  match sub128 totalPrize claimedPrize with
  | .error e => .error e
  | .ok amount =>
      .ok (s, [.bankSend address s.ticketPrice.denom amount])

/-- `msg.rs` `ExecuteMsg`. -/
inductive ExecuteMsg where
  | updateConfig (newOwner : Option String)
  | bid (bin : Nat)
  | changeBid (bin : Nat)
  | removeBid
  | registerMerkleRoots (merkleRootAirdrop : String)
      (totalAmountAirdrop : Option Nat) (merkleRootGame : String)
      (totalAmountGame : Option Nat)
  | claimAirdrop (amount : Nat) (proofAirdrop proofGame : List String)
  | claimPrize
  | withdrawAirdrop (address : Addr)
  | withdrawPrize (address : Addr)
deriving DecidableEq, Repr

/-- The `execute` dispatcher in `contract.rs`. -/
def execute (env : Env) (info : MessageInfo) (msg : ExecuteMsg)
    (s : ContractState) : ExecResult :=
  match msg with
  | .updateConfig newOwner => executeUpdateConfig env info newOwner s
  | .bid bin => executeBid env info bin s
  | .changeBid bin => executeChangeBid env info bin s
  | .removeBid => executeRemoveBid env info s
  | .registerMerkleRoots ra ta rg tg =>
      executeRegisterMerkleRoots env info ra ta rg tg s
  | .claimAirdrop amount pa pg => executeClaimAirdrop env info amount pa pg s
  | .claimPrize => executeClaimPrize env info s
  | .withdrawAirdrop address => executeWithdrawAirdrop env info address s
  | .withdrawPrize address => executeWithdrawPrize env info address s

/-- The states reachable by instantiating the contract and running any
sequence of successful execute calls. -/
inductive Reachable : ContractState → Prop where
  | instantiated (env : Env) (info : MessageInfo) (msg : InstantiateMsg)
      (s : ContractState) : instantiate env info msg = .ok s → Reachable s
  | step (env : Env) (info : MessageInfo) (msg : ExecuteMsg)
      (s s' : ContractState) (out : List CosmosMsg) : Reachable s →
      execute env info msg s = .ok (s', out) → Reachable s'

/-! ## Association-list map lemmas -/

/-- The keys of a stored map are pairwise distinct. -/
def NoDupKeys (m : StoreMap β) : Prop := (m.map Prod.fst).Nodup

theorem mHas_false_iff (m : StoreMap β) (k : Addr) :
    mHas m k = false ↔ ∀ p ∈ m, p.1 ≠ k := by
  induction m with
  | nil => simp [mHas, mGet]
  | cons p t ih =>
      cases hp : (p.1 == k) with
      | true =>
          simp only [mHas, mGet, List.find?, hp, Option.map_some,
            Option.isSome_some, List.mem_cons]
          constructor
          · intro h; cases h
          · intro h
            exact absurd (by simpa using hp) (h p (Or.inl rfl))
      | false =>
          have hstep : mHas (p :: t) k = mHas t k := by
            simp [mHas, mGet, List.find?, hp]
          rw [hstep, ih]
          constructor
          · intro h q hq
            rcases List.mem_cons.mp hq with hq | hq
            · subst hq
              intro he
              rw [he] at hp
              simp at hp
            · exact h q hq
          · intro h q hq
            exact h q (List.mem_cons_of_mem p hq)

theorem mRemove_eq_of_not_has (m : StoreMap β) (k : Addr)
    (h : mHas m k = false) : mRemove m k = m := by
  rw [mHas_false_iff] at h
  induction m with
  | nil => rfl
  | cons p t ih =>
      simp only [mRemove, List.filter] at *
      rw [show (!(p.1 == k)) = true by simpa using h p (by simp)]
      simp only [List.cons.injEq, true_and]
      exact ih (fun q hq => h q (List.mem_cons_of_mem p hq))

theorem length_mSet_of_not_has (m : StoreMap β) (k : Addr) (v : β)
    (h : mHas m k = false) : (mSet m k v).length = m.length + 1 := by
  simp [mSet, mRemove_eq_of_not_has m k h]

theorem length_mRemove_of_has (m : StoreMap β) (k : Addr)
    (hnd : NoDupKeys m) (h : mHas m k = true) :
    m.length = (mRemove m k).length + 1 := by
  induction m with
  | nil => simp [mHas, mGet] at h
  | cons p t ih =>
      cases hp : (p.1 == k) with
      | true =>
          have htk : mHas t k = false := by
            rw [mHas_false_iff]
            intro q hq hqk
            have hins : p.1 ∈ t.map Prod.fst := by
              rw [show p.1 = k by simpa using hp, ← hqk]
              exact List.mem_map_of_mem Prod.fst hq
            exact (List.nodup_cons.mp hnd).1 hins
          have hrem : mRemove (p :: t) k = mRemove t k := by
            simp [mRemove, List.filter, hp]
          rw [hrem, mRemove_eq_of_not_has t k htk, List.length_cons]
      | false =>
          have hm : mHas t k = true := by
            simp only [mHas, mGet, List.find?, hp] at h
            simpa [mHas, mGet] using h
          have hrem : mRemove (p :: t) k = p :: mRemove t k := by
            simp [mRemove, List.filter, hp]
          rw [hrem, List.length_cons, List.length_cons,
            ih (List.nodup_cons.mp hnd).2 hm]

theorem noDupKeys_mRemove (m : StoreMap β) (k : Addr) (hnd : NoDupKeys m) :
    NoDupKeys (mRemove m k) := by
  unfold NoDupKeys mRemove at *
  exact ((List.filter_sublist m).map Prod.fst).nodup hnd

theorem not_mem_keys_mRemove (m : StoreMap β) (k : Addr) :
    k ∉ (mRemove m k).map Prod.fst := by
  intro hmem
  rcases List.mem_map.mp hmem with ⟨p, hp, hpk⟩
  have := List.of_mem_filter hp
  simp [hpk] at this

theorem noDupKeys_mSet (m : StoreMap β) (k : Addr) (v : β)
    (hnd : NoDupKeys m) : NoDupKeys (mSet m k v) := by
  unfold NoDupKeys mSet
  simp only [List.map_cons, List.nodup_cons]
  exact ⟨not_mem_keys_mRemove m k, noDupKeys_mRemove m k hnd⟩

theorem mGet_ne_nil (m : StoreMap β) (k : Addr) (v : β)
    (h : mGet m k = some v) : m ≠ [] := by
  intro hnil
  subst hnil
  simp [mGet] at h

theorem mGet_mSet_self (m : StoreMap β) (k : Addr) (v : β) :
    mGet (mSet m k v) k = some v := by
  simp [mGet, mSet, List.find?]

/-! ## The inductive state invariant behind C5 and C9 -/

/-- Inductive invariant: bid keys are distinct, the ticket-prize pool equals
the ticket price times the number of live bids, and a nonempty prize-claim
table implies at least one counted winner. -/
def Inv (s : ContractState) : Prop :=
  NoDupKeys s.bids ∧
  s.totalTicketPrize = s.ticketPrice.amount * s.bids.length ∧
  (s.claimPrize ≠ [] → 1 ≤ s.winners)

theorem add128_ok_iff {a b c : Nat} :
    add128 a b = .ok c ↔ a + b < 2 ^ 128 ∧ c = a + b := by
  unfold add128
  split
  · simp_all [eq_comm]
  · simp_all

theorem sub128_ok_iff {a b c : Nat} :
    sub128 a b = .ok c ↔ b ≤ a ∧ c = a - b := by
  unfold sub128
  split
  · simp_all [eq_comm]
  · simp_all

theorem divUnwrap_ok_iff {a b c : Nat} :
    divUnwrap a b = .ok c ↔ b ≠ 0 ∧ c = a / b := by
  unfold divUnwrap
  split
  · simp_all
  · simp_all [eq_comm]

theorem loadItem_ok_iff {o : Option α} {v : α} :
    loadItem o = .ok v ↔ o = some v := by
  unfold loadItem
  cases o <;> simp

theorem add128_ok_val {a b c : Nat} (h : add128 a b = .ok c) : c = a + b :=
  (add128_ok_iff.mp h).2

theorem divUnwrap_ok_ne {a b c : Nat} (h : divUnwrap a b = .ok c) : b ≠ 0 :=
  (divUnwrap_ok_iff.mp h).1

theorem divUnwrap_ok_val {a b c : Nat} (h : divUnwrap a b = .ok c) :
    c = a / b :=
  (divUnwrap_ok_iff.mp h).2

theorem inv_instantiate (env : Env) (info : MessageInfo) (msg : InstantiateMsg)
    (s : ContractState) (h : instantiate env info msg = .ok s) : Inv s := by
  unfold instantiate at h
  try simp only [] at h
  repeat any_goals split at h
  all_goals cases h
  all_goals exact ⟨by simp [NoDupKeys], by simp, by simp⟩

theorem inv_executeUpdateConfig (env : Env) (info : MessageInfo)
    (newOwner : Option String) (s s' : ContractState) (out : List CosmosMsg)
    (h : executeUpdateConfig env info newOwner s = .ok (s', out))
    (hInv : Inv s) : Inv s' := by
  unfold executeUpdateConfig at h
  try simp only [] at h
  repeat any_goals split at h
  all_goals cases h
  exact hInv

theorem inv_executeBid (env : Env) (info : MessageInfo) (bin : Nat)
    (s s' : ContractState) (out : List CosmosMsg)
    (h : executeBid env info bin s = .ok (s', out))
    (hInv : Inv s) : Inv s' := by
  have hnd := hInv.1
  have htot := hInv.2.1
  have hwin := hInv.2.2
  unfold executeBid at h
  try simp only [] at h
  repeat any_goals split at h
  all_goals cases h
  all_goals
    simp only [Bool.not_eq_true, add128_ok_iff] at *
    refine ⟨noDupKeys_mSet s.bids info.sender bin hnd, ?_, hwin⟩
    dsimp only
    rw [show (mSet s.bids info.sender bin).length = s.bids.length + 1 from
      length_mSet_of_not_has s.bids info.sender bin (by assumption),
      Nat.mul_succ, ← htot]
    omega

theorem inv_executeChangeBid (env : Env) (info : MessageInfo) (bin : Nat)
    (s s' : ContractState) (out : List CosmosMsg)
    (h : executeChangeBid env info bin s = .ok (s', out))
    (hInv : Inv s) : Inv s' := by
  have hnd := hInv.1
  have htot := hInv.2.1
  have hwin := hInv.2.2
  unfold executeChangeBid at h
  try simp only [] at h
  repeat any_goals split at h
  all_goals cases h
  simp only [Bool.not_eq_true', Bool.not_eq_false] at *
  have hhas : mHas s.bids info.sender = true := by assumption
  refine ⟨noDupKeys_mSet s.bids info.sender bin hnd, ?_, hwin⟩
  dsimp only
  have hlen : (mSet s.bids info.sender bin).length = s.bids.length := by
    simp only [mSet, List.length_cons]
    exact (length_mRemove_of_has s.bids info.sender hnd hhas).symm
  rw [hlen, ← htot]

theorem inv_executeRemoveBid (env : Env) (info : MessageInfo)
    (s s' : ContractState) (out : List CosmosMsg)
    (h : executeRemoveBid env info s = .ok (s', out))
    (hInv : Inv s) : Inv s' := by
  have hnd := hInv.1
  have htot := hInv.2.1
  have hwin := hInv.2.2
  unfold executeRemoveBid at h
  try simp only [] at h
  repeat any_goals split at h
  all_goals cases h
  simp only [Bool.not_eq_true', Bool.not_eq_false, sub128_ok_iff] at *
  have hhas : mHas s.bids info.sender = true := by assumption
  have hlen := length_mRemove_of_has s.bids info.sender hnd hhas
  refine ⟨noDupKeys_mRemove s.bids info.sender hnd, ?_, hwin⟩
  dsimp only
  have htot2 : s.totalTicketPrize =
      s.ticketPrice.amount * (mRemove s.bids info.sender).length
        + s.ticketPrice.amount := by
    rw [htot, hlen, Nat.mul_succ]
  omega

theorem inv_executeRegisterMerkleRoots (env : Env) (info : MessageInfo)
    (ra : String) (ta : Option Nat) (rg : String) (tg : Option Nat)
    (s s' : ContractState) (out : List CosmosMsg)
    (h : executeRegisterMerkleRoots env info ra ta rg tg s = .ok (s', out))
    (hInv : Inv s) : Inv s' := by
  unfold executeRegisterMerkleRoots at h
  try simp only [] at h
  repeat any_goals split at h
  all_goals cases h
  exact hInv

/-- Case analysis of the winner-detection block: the prize-claim table and
winners counter are either left unchanged, or a fresh unpaid entry for the
sender is recorded together with a one-larger winners counter. -/
theorem claimAirdropGame_cases (info : MessageInfo) (pg : List String)
    (rg : String) (s : ContractState) (cp : StoreMap Bool) (w : Nat)
    (h : claimAirdropGame info pg rg s = .ok (cp, w)) :
    (cp = s.claimPrize ∧ w = s.winners) ∨
    (cp = mSet s.claimPrize info.sender false ∧ w = s.winners + 1) := by
  unfold claimAirdropGame at h
  try simp only [] at h
  repeat any_goals split at h
  all_goals cases h
  · exact Or.inl ⟨rfl, rfl⟩
  · exact Or.inr ⟨rfl, add128_ok_val (by assumption)⟩
  · exact Or.inl ⟨rfl, rfl⟩

/-- Shape of a successful `execute_claim_airdrop`: the bid ledger and the
ticket pool are untouched, and the prize-claim table and winners counter
change only as described by `claimAirdropGame_cases`. -/
theorem executeClaimAirdrop_ok_shape (env : Env) (info : MessageInfo)
    (amount : Nat) (pa pg : List String) (s s' : ContractState)
    (out : List CosmosMsg)
    (h : executeClaimAirdrop env info amount pa pg s = .ok (s', out)) :
    s'.bids = s.bids ∧ s'.ticketPrice = s.ticketPrice ∧
    s'.totalTicketPrize = s.totalTicketPrize ∧
    ((s'.claimPrize = s.claimPrize ∧ s'.winners = s.winners) ∨
     (s'.claimPrize = mSet s.claimPrize info.sender false ∧
      s'.winners = s.winners + 1)) := by
  unfold executeClaimAirdrop at h
  try simp only [] at h
  repeat any_goals split at h
  all_goals cases h
  exact ⟨rfl, rfl, rfl, claimAirdropGame_cases _ _ _ _ _ _ (by assumption)⟩

theorem inv_executeClaimAirdrop (env : Env) (info : MessageInfo) (amount : Nat)
    (pa pg : List String) (s s' : ContractState) (out : List CosmosMsg)
    (h : executeClaimAirdrop env info amount pa pg s = .ok (s', out))
    (hInv : Inv s) : Inv s' := by
  obtain ⟨hb, htp, htt, hcw⟩ :=
    executeClaimAirdrop_ok_shape env info amount pa pg s s' out h
  refine ⟨?_, ?_, ?_⟩
  · rw [hb]; exact hInv.1
  · rw [htt, htp, hb]; exact hInv.2.1
  · rcases hcw with ⟨hcp, hw⟩ | ⟨hcp, hw⟩
    · rw [hcp, hw]; exact hInv.2.2
    · rw [hw]
      exact fun _ => Nat.le_add_left 1 s.winners

theorem inv_executeClaimPrize (env : Env) (info : MessageInfo)
    (s s' : ContractState) (out : List CosmosMsg)
    (h : executeClaimPrize env info s = .ok (s', out))
    (hInv : Inv s) : Inv s' := by
  unfold executeClaimPrize at h
  try simp only [] at h
  repeat any_goals split at h
  all_goals cases h
  refine ⟨hInv.1, hInv.2.1, fun _ => ?_⟩
  have hw : s.winners ≠ 0 :=
    divUnwrap_ok_ne (a := s.totalTicketPrize) (by assumption)
  show 1 ≤ s.winners
  omega

theorem inv_executeWithdrawAirdrop (env : Env) (info : MessageInfo)
    (address : Addr) (s s' : ContractState) (out : List CosmosMsg)
    (h : executeWithdrawAirdrop env info address s = .ok (s', out))
    (hInv : Inv s) : Inv s' := by
  unfold executeWithdrawAirdrop at h
  try simp only [] at h
  repeat any_goals split at h
  all_goals cases h
  exact hInv

theorem inv_executeWithdrawPrize (env : Env) (info : MessageInfo)
    (address : Addr) (s s' : ContractState) (out : List CosmosMsg)
    (h : executeWithdrawPrize env info address s = .ok (s', out))
    (hInv : Inv s) : Inv s' := by
  unfold executeWithdrawPrize at h
  try simp only [] at h
  repeat any_goals split at h
  all_goals cases h
  exact hInv

theorem inv_execute (env : Env) (info : MessageInfo) (msg : ExecuteMsg)
    (s s' : ContractState) (out : List CosmosMsg)
    (h : execute env info msg s = .ok (s', out)) (hInv : Inv s) : Inv s' := by
  cases msg with
  | updateConfig a => exact inv_executeUpdateConfig env info a s s' out h hInv
  | bid b => exact inv_executeBid env info b s s' out h hInv
  | changeBid b => exact inv_executeChangeBid env info b s s' out h hInv
  | removeBid => exact inv_executeRemoveBid env info s s' out h hInv
  | registerMerkleRoots a b c d =>
      exact inv_executeRegisterMerkleRoots env info a b c d s s' out h hInv
  | claimAirdrop a b c =>
      exact inv_executeClaimAirdrop env info a b c s s' out h hInv
  | claimPrize => exact inv_executeClaimPrize env info s s' out h hInv
  | withdrawAirdrop a =>
      exact inv_executeWithdrawAirdrop env info a s s' out h hInv
  | withdrawPrize a =>
      exact inv_executeWithdrawPrize env info a s s' out h hInv

/-- Every reachable state satisfies the inductive invariant. -/
theorem reachable_inv (s : ContractState) (h : Reachable s) : Inv s := by
  induction h with
  | instantiated env info msg t ht => exact inv_instantiate env info msg t ht
  | step env info msg t t' out _ hstep ih =>
      exact inv_execute env info msg t t' out hstep ih

end Wasmgame

namespace Wasmgame

/-! ## A concrete execution used by the conservation counterexample and as a
witness state: instantiate, one bid, root registration, one airdrop claim.

The airdrop root commits the single leaf `("addr0001", 7)` (so the empty
proof verifies) while the registered totals are left at their `None` default
of zero; the game root commits the single leaf `("addr0001", bin 1)`. -/

/-- Hex digest of `SHA-256("addr00017")`, the airdrop leaf of the trace. -/
def wgRootAirdrop : String :=
  "94abbbc1bf0a9ef413734fb4d958d23358d2c2291cfde39754985e9ddc915e69"

/-- Hex digest of `SHA-256("addr00011")`, the game leaf of the trace. -/
def wgRootGame : String :=
  "6ee1cc1860fe9005110845e821452aee49c0cc147eeba1fd2c82052b5aeb4ee5"

/-- The instantiation message of the concrete trace. -/
def wgInstMsg : InstantiateMsg :=
  { owner := some "owner0000"
    cw20TokenAddress := "token0000"
    ticketPrice := { denom := "ujuno", amount := 10 }
    bins := 10
    stageBid := { start := .atHeight 200000, duration := .height 2 }
    stageClaimAirdrop := { start := .atHeight 203000, duration := .height 2 }
    stageClaimPrize := { start := .atHeight 206000, duration := .height 2 } }

/-- Block before the bid stage, at instantiation. -/
def wgEnv0 : Env := { block := { height := 100000, time := 0 } }

/-- Block inside the bid stage. -/
def wgEnvBid : Env := { block := { height := 200001, time := 0 } }

/-- Block inside the claim-airdrop stage. -/
def wgEnvCA : Env := { block := { height := 203001, time := 0 } }

/-- Block inside the claim-prize stage. -/
def wgEnvCP : Env := { block := { height := 206001, time := 0 } }

/-- The owner's message info, no funds attached. -/
def wgOwnerInf : MessageInfo := { sender := "owner0000", funds := [] }

/-- The player's message info carrying exactly the ticket price. -/
def wgPlayerInf : MessageInfo :=
  { sender := "addr0001", funds := [{ denom := "ujuno", amount := 10 }] }

/-- The player's message info with no funds (claims attach none). -/
def wgPlayerInf0 : MessageInfo := { sender := "addr0001", funds := [] }

/-- State after instantiation. -/
def wgS0 : ContractState :=
  { config := { owner := some "owner0000", cw20TokenAddress := "token0000" }
    stageBid := { start := .atHeight 200000, duration := .height 2 }
    stageClaimAirdrop := { start := .atHeight 203000, duration := .height 2 }
    stageClaimPrize := { start := .atHeight 206000, duration := .height 2 }
    ticketPrice := { denom := "ujuno", amount := 10 }
    bins := 10
    winners := 0
    totalTicketPrize := 0
    merkleRootAirdrop := none
    merkleRootGame := none
    totalAirdropAmount := none
    totalAirdropGameAmount := none
    claimedAirdropAmount := none
    claimedPrizeAmount := none
    bids := []
    claimAirdrop := []
    claimPrize := [] }

/-- State after the player's bid on bin 1. -/
def wgS1 : ContractState :=
  { wgS0 with totalTicketPrize := 10, bids := [("addr0001", 1)] }

/-- State after the owner registers both roots with both totals omitted
(hence zero). -/
def wgS2 : ContractState :=
  { wgS1 with
      merkleRootAirdrop := some wgRootAirdrop
      merkleRootGame := some wgRootGame
      totalAirdropAmount := some 0
      totalAirdropGameAmount := some 0
      claimedAirdropAmount := some 0
      claimedPrizeAmount := some 0 }

/-- State after the player claims airdrop amount 7 with empty proofs and is
recorded as a winner. -/
def wgS3 : ContractState :=
  { wgS2 with
      winners := 1
      claimedAirdropAmount := some 7
      claimAirdrop := [("addr0001", true)]
      claimPrize := [("addr0001", false)] }

theorem wg_instantiate_ok : instantiate wgEnv0 wgOwnerInf wgInstMsg = .ok wgS0 := by
  rfl

theorem wg_bid_ok :
    execute wgEnvBid wgPlayerInf (.bid 1) wgS0 = .ok (wgS1, []) := by
  rfl

theorem wg_register_ok :
    execute wgEnvBid wgOwnerInf
      (.registerMerkleRoots wgRootAirdrop none wgRootGame none) wgS1 =
      .ok (wgS2, []) := by
  rfl

theorem wg_claimAirdrop_ok :
    execute wgEnvCA wgPlayerInf0 (.claimAirdrop 7 [] []) wgS2 =
      .ok (wgS3, [.cw20Transfer "token0000" "addr0001" 7]) := by
  rfl

/-- The final state of the concrete trace is reachable. -/
theorem wgS3_reachable : Reachable wgS3 :=
  Reachable.step wgEnvCA wgPlayerInf0 (.claimAirdrop 7 [] []) wgS2 wgS3 _
    (Reachable.step wgEnvBid wgOwnerInf
      (.registerMerkleRoots wgRootAirdrop none wgRootGame none) wgS1 wgS2 _
      (Reachable.step wgEnvBid wgPlayerInf (.bid 1) wgS0 wgS1 _
        (Reachable.instantiated wgEnv0 wgOwnerInf wgInstMsg wgS0 wg_instantiate_ok)
        wg_bid_ok)
      wg_register_ok)
    wg_claimAirdrop_ok

end Wasmgame

namespace Wasmgame

theorem mHas_ne_nil (m : StoreMap β) (k : Addr) (h : mHas m k = true) :
    m ≠ [] := by
  intro hnil
  subst hnil
  simp [mHas, mGet] at h

theorem length_pos_of_mHas (m : StoreMap β) (k : Addr) (h : mHas m k = true) :
    1 ≤ m.length := by
  cases m with
  | nil => exact absurd rfl (mHas_ne_nil [] k h)
  | cons p t => simp

/-- C1: the spec's conservation invariant
`claimed_airdrop_amount ≤ total_airdrop_amount + total_airdrop_game_amount`
does NOT hold in every reachable state: the code never compares claimed
amounts against the registered totals. In the concrete reachable trace
(instantiate; bid; register roots with both totals omitted, hence zero, while
the airdrop root commits the leaf `("addr0001", 7)`; claim the airdrop),
the final state has `claimed_airdrop_amount = 7 > 0 + 0`. -/
theorem C1_conservation_violated_in_reachable_state :
    Reachable wgS3 ∧
    wgS3.claimedAirdropAmount = some 7 ∧
    wgS3.totalAirdropAmount = some 0 ∧
    wgS3.totalAirdropGameAmount = some 0 ∧
    ¬ (wgS3.claimedAirdropAmount.getD 0 ≤
        wgS3.totalAirdropAmount.getD 0 + wgS3.totalAirdropGameAmount.getD 0) :=
  ⟨wgS3_reachable, rfl, rfl, rfl, by decide⟩

/-- C5: in every reachable state, when `claim_prize`'s eligibility check
passes (a prize-claim entry exists for the sender), the winners counter is at
least one, so both `checked_div(winners).unwrap()` calls succeed and the
division-by-zero panic branch never fires. -/
theorem C5_eligibility_implies_winners_positive (s : ContractState)
    (h : Reachable s) (sender : Addr) (b : Bool)
    (helig : mGet s.claimPrize sender = some b) :
    1 ≤ s.winners ∧
    divUnwrap s.totalTicketPrize s.winners =
      .ok (s.totalTicketPrize / s.winners) ∧
    (∀ g : Nat, divUnwrap g s.winners = .ok (g / s.winners)) := by
  have hInv := reachable_inv s h
  have hw := hInv.2.2 (mGet_ne_nil s.claimPrize sender b helig)
  refine ⟨hw, ?_, fun g => ?_⟩ <;>
    simp [divUnwrap, Nat.pos_iff_ne_zero.mp hw]

/-- Witness for C5 at the concrete reachable state of the trace. -/
theorem C5_witness :
    1 ≤ wgS3.winners ∧
    divUnwrap wgS3.totalTicketPrize wgS3.winners =
      .ok (wgS3.totalTicketPrize / wgS3.winners) ∧
    (∀ g : Nat, divUnwrap g wgS3.winners = .ok (g / wgS3.winners)) :=
  C5_eligibility_implies_winners_positive wgS3 wgS3_reachable "addr0001" false rfl

/-- C9: in every reachable state the ticket pool equals the ticket price
times the number of live bids; hence whenever a bid is present the
`RemoveBid` subtraction `total_ticket_prize -= ticket_price.amount` cannot
underflow. -/
theorem C9_ticket_pool_invariant (s : ContractState) (h : Reachable s) :
    s.totalTicketPrize = s.ticketPrice.amount * s.bids.length ∧
    (∀ a : Addr, mHas s.bids a = true →
      sub128 s.totalTicketPrize s.ticketPrice.amount =
        .ok (s.totalTicketPrize - s.ticketPrice.amount)) := by
  have hInv := reachable_inv s h
  refine ⟨hInv.2.1, fun a ha => ?_⟩
  have hle : s.ticketPrice.amount ≤ s.totalTicketPrize := by
    rw [hInv.2.1]
    calc s.ticketPrice.amount = s.ticketPrice.amount * 1 := by ring
    _ ≤ s.ticketPrice.amount * s.bids.length :=
        Nat.mul_le_mul_left _ (length_pos_of_mHas s.bids a ha)
  simp [sub128, hle]

/-- Witness for C9 at the concrete reachable state of the trace. -/
theorem C9_witness :
    wgS3.totalTicketPrize = wgS3.ticketPrice.amount * wgS3.bids.length ∧
    sub128 wgS3.totalTicketPrize wgS3.ticketPrice.amount =
      .ok (wgS3.totalTicketPrize - wgS3.ticketPrice.amount) :=
  ⟨(C9_ticket_pool_invariant wgS3 wgS3_reachable).1,
   (C9_ticket_pool_invariant wgS3 wgS3_reachable).2 "addr0001" rfl⟩

end Wasmgame

namespace Wasmgame

/-- C10: instantiation always sets an owner — the message's owner when given,
otherwise the sender — so no contract starts in the frozen (owner-less)
state; and the only execute step that can take a non-frozen state to a
frozen one is `UpdateConfig` with no new owner. -/
theorem C10_no_frozen_instantiation :
    (∀ (env : Env) (info : MessageInfo) (msg : InstantiateMsg)
      (s : ContractState), instantiate env info msg = .ok s →
      s.config.owner = some (msg.owner.getD info.sender)) ∧
    (∀ (env : Env) (info : MessageInfo) (msg : ExecuteMsg)
      (s s' : ContractState) (out : List CosmosMsg),
      execute env info msg s = .ok (s', out) →
      s.config.owner ≠ none → s'.config.owner = none →
      msg = .updateConfig none) := by
  constructor
  · intro env info msg s h
    unfold instantiate at h
    try simp only [] at h
    repeat any_goals split at h
    all_goals cases h
    all_goals simp_all
  · intro env info msg s s' out h howner hfrozen
    cases msg with
    | updateConfig newOwner =>
        simp only [execute] at h
        unfold executeUpdateConfig at h
        repeat any_goals split at h
        all_goals cases h
        simp only at hfrozen
        rw [hfrozen]
    | bid bin =>
        simp only [execute] at h
        unfold executeBid at h
        try simp only [] at h
        repeat any_goals split at h
        all_goals cases h
        all_goals exact absurd hfrozen howner
    | changeBid bin =>
        simp only [execute] at h
        unfold executeChangeBid at h
        try simp only [] at h
        repeat any_goals split at h
        all_goals cases h
        exact absurd hfrozen howner
    | removeBid =>
        simp only [execute] at h
        unfold executeRemoveBid at h
        try simp only [] at h
        repeat any_goals split at h
        all_goals cases h
        exact absurd hfrozen howner
    | registerMerkleRoots a b c d =>
        simp only [execute] at h
        unfold executeRegisterMerkleRoots at h
        try simp only [] at h
        repeat any_goals split at h
        all_goals cases h
        exact absurd hfrozen howner
    | claimAirdrop a b c =>
        simp only [execute] at h
        unfold executeClaimAirdrop at h
        try simp only [] at h
        repeat any_goals split at h
        all_goals cases h
        exact absurd hfrozen howner
    | claimPrize =>
        simp only [execute] at h
        unfold executeClaimPrize at h
        try simp only [] at h
        repeat any_goals split at h
        all_goals cases h
        exact absurd hfrozen howner
    | withdrawAirdrop a =>
        simp only [execute] at h
        unfold executeWithdrawAirdrop at h
        try simp only [] at h
        repeat any_goals split at h
        all_goals cases h
        exact absurd hfrozen howner
    | withdrawPrize a =>
        simp only [execute] at h
        unfold executeWithdrawPrize at h
        try simp only [] at h
        repeat any_goals split at h
        all_goals cases h
        exact absurd hfrozen howner

/-- Witness for C10: a concrete instantiation with `owner = None` yields the
sender as owner, and a concrete owner-less `UpdateConfig` is the freezing
step the theorem names. -/
theorem C10_witness :
    wgS0.config.owner = some ((none : Option String).getD "owner0000") ∧
    ExecuteMsg.updateConfig none = .updateConfig none :=
  ⟨C10_no_frozen_instantiation.1 wgEnv0 wgOwnerInf
      { wgInstMsg with owner := none } wgS0 rfl,
   C10_no_frozen_instantiation.2 wgEnvBid wgOwnerInf (.updateConfig none) wgS0
      { wgS0 with config := { wgS0.config with owner := none } } [] rfl
      (by simp [wgS0]) rfl⟩

end Wasmgame

namespace Wasmgame

/-- C6: a successful `ClaimAirdrop` records the sender in the airdrop-claim
table, and as soon as any record (of either boolean value) is present for
the sender, every further `ClaimAirdrop` call during the stage fails
`AlreadyClaimed` regardless of the amount and proofs supplied — the guard
reads only the record's presence, never its value. -/
theorem C6_claim_airdrop_exactly_once (env1 : Env) (info : MessageInfo)
    (amount : Nat) (pa pg : List String) (s s1 : ContractState)
    (out : List CosmosMsg) :
    (executeClaimAirdrop env1 info amount pa pg s = .ok (s1, out) →
      mGet s1.claimAirdrop info.sender = some true) ∧
    (∀ (env2 : Env) (b : Bool) (t : ContractState) (amount' : Nat)
      (pa' pg' : List String),
      checkIfValidStage env2 t.stageClaimAirdrop "claim airdrop" = .ok () →
      mGet t.claimAirdrop info.sender = some b →
      executeClaimAirdrop env2 info amount' pa' pg' t =
        .error .alreadyClaimed) := by
  constructor
  · intro h
    unfold executeClaimAirdrop at h
    try simp only [] at h
    repeat any_goals split at h
    all_goals cases h
    exact mGet_mSet_self s.claimAirdrop info.sender true
  · intro env2 b t amount' pa' pg' hstage hb
    unfold executeClaimAirdrop
    rw [hstage, hb]
    simp

/-- Witness for C6: the concrete first claim of the trace succeeds and
records the sender; repeating the call on the resulting state with a
different amount and junk proofs fails `AlreadyClaimed`. -/
theorem C6_witness :
    mGet wgS3.claimAirdrop "addr0001" = some true ∧
    executeClaimAirdrop wgEnvCA wgPlayerInf0 999 ["zz"] [] wgS3 =
      .error .alreadyClaimed :=
  ⟨(C6_claim_airdrop_exactly_once wgEnvCA wgPlayerInf0 7 [] [] wgS2 wgS3
      [.cw20Transfer "token0000" "addr0001" 7]).1 wg_claimAirdrop_ok,
   (C6_claim_airdrop_exactly_once wgEnvCA wgPlayerInf0 7 [] [] wgS2 wgS3
      [.cw20Transfer "token0000" "addr0001" 7]).2 wgEnvCA true wgS3 999
      ["zz"] [] rfl rfl⟩

end Wasmgame

namespace Wasmgame

/-- C7: during the active bid stage, `Bid` fails `CannotBidMoreThanOnce` on a
duplicate bid, fails `TicketPriceNotPaid` when the funds summed in the ticket
denomination fall short (coins of other denominations being ignored by that
sum), fails `BinDoesNotExist` when the bin exceeds the bound, and otherwise
records the bid, adds the ticket price to the pool, and refunds exactly the
excess over the ticket price when any was paid. -/
theorem C7_bid_behavior (env : Env) (info : MessageInfo) (bin : Nat)
    (s : ContractState) (fs : Coin)
    (hstage : checkIfValidStage env s.stageBid "bid" = .ok ())
    (hsum : getAmountForDenom info.funds s.ticketPrice.denom = .ok fs) :
    (∀ (c : Coin) (cs : List Coin),
      c.denom ≠ s.ticketPrice.denom →
      getAmountForDenom (c :: cs) s.ticketPrice.denom =
        getAmountForDenom cs s.ticketPrice.denom) ∧
    (mHas s.bids info.sender = true →
      executeBid env info bin s = .error .cannotBidMoreThanOnce) ∧
    (mHas s.bids info.sender = false →
      fs.amount < s.ticketPrice.amount →
      executeBid env info bin s = .error .ticketPriceNotPaid) ∧
    (mHas s.bids info.sender = false →
      ¬ fs.amount < s.ticketPrice.amount → s.bins < bin →
      executeBid env info bin s = .error (.binDoesNotExist s.bins)) ∧
    (mHas s.bids info.sender = false →
      ¬ fs.amount < s.ticketPrice.amount → ¬ s.bins < bin →
      s.totalTicketPrize + s.ticketPrice.amount < 2 ^ 128 →
      executeBid env info bin s = .ok
        ({ s with bids := mSet s.bids info.sender bin,
                  totalTicketPrize :=
                    s.totalTicketPrize + s.ticketPrice.amount },
         if s.ticketPrice.amount < fs.amount then
           [.bankSend info.sender fs.denom (fs.amount - s.ticketPrice.amount)]
         else [])) := by
  refine ⟨?_, ?_, ?_, ?_, ?_⟩
  · intro c cs hne
    unfold getAmountForDenom
    conv_lhs => rw [sumAmounts]
    rw [if_neg (by simpa using hne)]
  · intro hhas
    simp [executeBid, hstage, hhas]
  · intro hhas hlt
    simp [executeBid, hstage, hhas, hsum, hlt]
  · intro hhas hge hbin
    simp [executeBid, hstage, hhas, hsum, hge, hbin]
  · intro hhas hge hbin hov
    have hov2 : s.totalTicketPrize + s.ticketPrice.amount
        < 340282366920938463463374607431768211456 := by omega
    simp [executeBid, hstage, hhas, hsum, hge, hbin, add128, hov2]

/-- Message info of a bidder underpaying the ticket price. -/
def wgInfUnder : MessageInfo :=
  { sender := "addr0002", funds := [{ denom := "ujuno", amount := 5 }] }

/-- Message info of a bidder overpaying the ticket price by 10. -/
def wgInfOver : MessageInfo :=
  { sender := "addr0001", funds := [{ denom := "ujuno", amount := 20 }] }

/-- Witness for C7: on concrete states of the trace — funds in a foreign
denomination are ignored by the sum, a duplicate bid fails, an underpaid bid
fails, an out-of-range bin fails, and a bid overpaying by 10 is recorded
with a refund of exactly 10. -/
theorem C7_witness :
    (getAmountForDenom [{ denom := "uatom", amount := 50 }] "ujuno" =
      getAmountForDenom [] "ujuno") ∧
    executeBid wgEnvBid wgPlayerInf 1 wgS1 = .error .cannotBidMoreThanOnce ∧
    executeBid wgEnvBid wgInfUnder 1 wgS0 = .error .ticketPriceNotPaid ∧
    executeBid wgEnvBid wgPlayerInf 11 wgS0 = .error (.binDoesNotExist 10) ∧
    executeBid wgEnvBid wgInfOver 1 wgS0 = .ok
      ({ wgS0 with bids := mSet wgS0.bids "addr0001" 1,
                   totalTicketPrize := 0 + 10 },
       [.bankSend "addr0001" "ujuno" 10]) := by
  refine ⟨?_, ?_, ?_, ?_, ?_⟩
  · exact (C7_bid_behavior wgEnvBid wgPlayerInf 1 wgS0
      { denom := "ujuno", amount := 10 } rfl rfl).1
      { denom := "uatom", amount := 50 } [] (by decide)
  · exact (C7_bid_behavior wgEnvBid wgPlayerInf 1 wgS1
      { denom := "ujuno", amount := 10 } rfl rfl).2.1 rfl
  · exact (C7_bid_behavior wgEnvBid wgInfUnder 1 wgS0
      { denom := "ujuno", amount := 5 } rfl rfl).2.2.1 rfl (by decide)
  · exact (C7_bid_behavior wgEnvBid wgPlayerInf 11 wgS0
      { denom := "ujuno", amount := 10 } rfl rfl).2.2.2.1 rfl
      (by decide) (by decide)
  · have h := (C7_bid_behavior wgEnvBid wgInfOver 1 wgS0
      { denom := "ujuno", amount := 20 } rfl rfl).2.2.2.2 rfl
      (by decide) (by decide) (by decide)
    simpa using h

end Wasmgame

namespace Wasmgame

/-- C8: both withdrawals are owner-only (always refused when the owner is
unset), require the claim-prize stage to have fully ended, and on success
emit one transfer of exactly the unclaimed remainder: committed airdrop
totals minus claimed for `WithdrawAirdrop` (in the token), ticket pool minus
claimed prizes for `WithdrawPrize` (in the ticket denomination), leaving the
state unchanged. -/
theorem C8_withdraw_behavior (env : Env) (info : MessageInfo) (addr : Addr)
    (s : ContractState) :
    (s.config.owner = none →
      executeWithdrawAirdrop env info addr s = .error .unauthorized ∧
      executeWithdrawPrize env info addr s = .error .unauthorized) ∧
    (∀ o : Addr, s.config.owner = some o → info.sender ≠ o →
      executeWithdrawAirdrop env info addr s = .error .unauthorized ∧
      executeWithdrawPrize env info addr s = .error .unauthorized) ∧
    (∀ (o : Addr) (se : Scheduled), s.config.owner = some o →
      info.sender = o →
      scheduledAdd s.stageClaimPrize.start s.stageClaimPrize.duration =
        .ok se →
      isTriggered se env.block = false →
      executeWithdrawAirdrop env info addr s =
        .error .claimPrizeStageNotFinished ∧
      executeWithdrawPrize env info addr s =
        .error .claimPrizeStageNotFinished) ∧
    (∀ (o : Addr) (se : Scheduled) (ta tg ca : Nat),
      s.config.owner = some o → info.sender = o →
      scheduledAdd s.stageClaimPrize.start s.stageClaimPrize.duration =
        .ok se →
      isTriggered se env.block = true →
      s.totalAirdropAmount = some ta → s.totalAirdropGameAmount = some tg →
      s.claimedAirdropAmount = some ca →
      ta + tg < 2 ^ 128 → ca ≤ ta + tg →
      executeWithdrawAirdrop env info addr s =
        .ok (s, [.cw20Transfer s.config.cw20TokenAddress addr
                  (ta + tg - ca)])) ∧
    (∀ (o : Addr) (se : Scheduled) (cp : Nat),
      s.config.owner = some o → info.sender = o →
      scheduledAdd s.stageClaimPrize.start s.stageClaimPrize.duration =
        .ok se →
      isTriggered se env.block = true →
      s.claimedPrizeAmount = some cp → cp ≤ s.totalTicketPrize →
      executeWithdrawPrize env info addr s =
        .ok (s, [.bankSend addr s.ticketPrice.denom
                  (s.totalTicketPrize - cp)])) := by
  refine ⟨?_, ?_, ?_, ?_, ?_⟩
  · intro hnone
    constructor <;> simp [executeWithdrawAirdrop, executeWithdrawPrize, hnone]
  · intro o howner hne
    constructor <;>
      simp [executeWithdrawAirdrop, executeWithdrawPrize, howner, hne]
  · intro o se howner hsender hadd htrig
    constructor <;>
      simp [executeWithdrawAirdrop, executeWithdrawPrize, howner, hsender,
        hadd, htrig]
  · intro o se ta tg ca howner hsender hadd htrig hta htg hca hov hle
    have hov2 : ta + tg < 340282366920938463463374607431768211456 := by omega
    simp [executeWithdrawAirdrop, howner, hsender, hadd, htrig, hta, htg,
      hca, loadItem, add128, sub128, hov2, hle]
  · intro o se cp howner hsender hadd htrig hcp hle
    simp [executeWithdrawPrize, howner, hsender, hadd, htrig, hcp,
      loadItem, sub128, hle]

/-- Block after the claim-prize stage has fully ended. -/
def wgEnvEnd : Env := { block := { height := 206002, time := 0 } }

/-- Witness for C8 on the concrete post-registration state: refused for a
non-owner, refused before the stage end, and full-remainder sweeps of 0
tokens and 10 native coins after the stage end. -/
theorem C8_witness :
    (executeWithdrawAirdrop wgEnvEnd wgPlayerInf0 "addr0009" wgS2 =
        .error .unauthorized ∧
      executeWithdrawPrize wgEnvEnd wgPlayerInf0 "addr0009" wgS2 =
        .error .unauthorized) ∧
    (executeWithdrawAirdrop wgEnvCP wgOwnerInf "addr0009" wgS2 =
        .error .claimPrizeStageNotFinished ∧
      executeWithdrawPrize wgEnvCP wgOwnerInf "addr0009" wgS2 =
        .error .claimPrizeStageNotFinished) ∧
    executeWithdrawAirdrop wgEnvEnd wgOwnerInf "addr0009" wgS2 =
      .ok (wgS2, [.cw20Transfer "token0000" "addr0009" (0 + 0 - 0)]) ∧
    executeWithdrawPrize wgEnvEnd wgOwnerInf "addr0009" wgS2 =
      .ok (wgS2, [.bankSend "addr0009" "ujuno" (10 - 0)]) :=
  ⟨(C8_withdraw_behavior wgEnvEnd wgPlayerInf0 "addr0009" wgS2).2.1
      "owner0000" rfl (by decide),
   (C8_withdraw_behavior wgEnvCP wgOwnerInf "addr0009" wgS2).2.2.1
      "owner0000" (.atHeight 206002) rfl rfl rfl rfl,
   (C8_withdraw_behavior wgEnvEnd wgOwnerInf "addr0009" wgS2).2.2.2.1
      "owner0000" (.atHeight 206002) 0 0 0 rfl rfl rfl rfl rfl rfl rfl
      (by decide) (by decide),
   (C8_withdraw_behavior wgEnvEnd wgOwnerInf "addr0009" wgS2).2.2.2.2
      "owner0000" (.atHeight 206002) 0 rfl rfl rfl rfl rfl (by decide)⟩

end Wasmgame

namespace Wasmgame

theorem hexToBytes32_error {s : String} {e : ContractError}
    (h : hexToBytes32 s = .error e) : e = .hexErr := by
  unfold hexToBytes32 at h
  split at h
  · cases h
  · cases h; rfl

theorem foldProofs_error {hash : List Nat} {ps : List String}
    {e : ContractError} (h : foldProofs hash ps = .error e) : e = .hexErr := by
  induction ps generalizing hash with
  | nil => cases h
  | cons p rest ih =>
      unfold foldProofs at h
      split at h
      · cases h
        exact hexToBytes32_error (by assumption)
      · exact ih h

theorem loadItem_error {o : Option α} {e : ContractError}
    (h : loadItem o = .error e) : e = .std "not found" := by
  unfold loadItem at h
  split at h
  · cases h
  · cases h; rfl

theorem add128_error {a b : Nat} {e : ContractError}
    (h : add128 a b = .error e) : e = .panic := by
  unfold add128 at h
  split at h
  · cases h
  · cases h; rfl

theorem claimAirdropGame_error (info : MessageInfo) (pg : List String)
    (rg : String) (s : ContractState) {e : ContractError}
    (h : claimAirdropGame info pg rg s = .error e) :
    e = .hexErr ∨ e = .panic := by
  unfold claimAirdropGame at h
  try simp only [] at h
  split at h
  · cases h
  · split at h
    · cases h
      exact Or.inl (foldProofs_error (by assumption))
    · split at h
      · cases h
        exact Or.inl (hexToBytes32_error (by assumption))
      · split at h
        · split at h
          · cases h
            exact Or.inr (add128_error (by assumption))
          · cases h
        · cases h

/-- C2: with the claim-airdrop stage active, no prior claim recorded, both
roots registered, the committed airdrop root hex-decoding to 32 bytes, and
every airdrop proof element hex-decoding (so the fold over the proof — pair
the running hash with the decoded element, sort the two 32-byte values
lexicographically, concatenate and apply SHA-256, starting from the SHA-256
of the UTF-8 bytes of the sender's address followed by the decimal string of
the amount — yields a final hash), `claim_airdrop` fails with
`VerificationFailed{"airdrop"}` exactly when that final hash differs from
the decoded root. -/
theorem C2_airdrop_proof_verification (env : Env) (info : MessageInfo)
    (amount : Nat) (pa pg : List String) (s : ContractState)
    (root rootG : String) (rootBuf hfinal : List Nat)
    (hstage : checkIfValidStage env s.stageClaimAirdrop "claim airdrop" =
      .ok ())
    (hnc : mGet s.claimAirdrop info.sender = none)
    (hrootA : s.merkleRootAirdrop = some root)
    (hrootG : s.merkleRootGame = some rootG)
    (hdec : hexDecode32 root = some rootBuf)
    (hfold : foldProofs (sha256 (strBytes (info.sender ++ Nat.repr amount)))
      pa = .ok hfinal) :
    executeClaimAirdrop env info amount pa pg s =
      .error (.verificationFailed "airdrop") ↔ rootBuf ≠ hfinal := by
  unfold executeClaimAirdrop
  simp only [hstage, hnc, Option.isSome_none, Bool.false_eq_true, if_false,
    loadItem, hrootA, hrootG, hfold, hexToBytes32, hdec]
  by_cases hne : rootBuf = hfinal
  · rw [if_neg (by simpa using hne)]
    simp only [hne, ne_eq, not_true_eq_false, iff_false]
    intro hcontra
    split at hcontra
    · cases hcontra
      rcases claimAirdropGame_error info pg rootG s (by assumption)
        with h1 | h1 <;> cases h1
    · split at hcontra
      · cases hcontra
        have h1 := loadItem_error (o := s.claimedAirdropAmount)
          (by assumption)
        cases h1
      · split at hcontra
        · cases hcontra
          have h1 := add128_error (by assumption)
          cases h1
        · cases hcontra
  · rw [if_pos hne]
    simpa using hne

/-- Witness for C2 at a concrete state: on `wgS2` the registered root is the
hash of the leaf `("addr0001", 7)`, so the theorem's equivalence applies with
the empty proof. -/
theorem C2_witness :
    executeClaimAirdrop wgEnvCA wgPlayerInf0 7 [] [] wgS2 =
        .error (.verificationFailed "airdrop") ↔
      (hexDecode32 wgRootAirdrop).getD [] ≠
        sha256 (strBytes ("addr0001" ++ Nat.repr 7)) :=
  C2_airdrop_proof_verification wgEnvCA wgPlayerInf0 7 [] [] wgS2
    wgRootAirdrop wgRootGame ((hexDecode32 wgRootAirdrop).getD [])
    (sha256 (strBytes ("addr0001" ++ Nat.repr 7))) rfl rfl rfl rfl rfl rfl

end Wasmgame

namespace Wasmgame

theorem claimAirdropGame_win (info : MessageInfo) (pg : List String)
    (rg : String) (s : ContractState) (bin : Nat) (gh gBuf : List Nat)
    (hbid : mGet s.bids info.sender = some bin)
    (hfoldG : foldProofs (sha256 (strBytes (info.sender ++ Nat.repr bin)))
      pg = .ok gh)
    (hdecG : hexDecode32 rg = some gBuf)
    (hwin : gBuf = gh)
    (hovw : s.winners + 1 < 2 ^ 128) :
    claimAirdropGame info pg rg s =
      .ok (mSet s.claimPrize info.sender false, s.winners + 1) := by
  have hovw2 : s.winners + 1 < 340282366920938463463374607431768211456 := by
    omega
  simp [claimAirdropGame, hbid, hfoldG, hexToBytes32, hdecG, hwin, add128,
    hovw2]

theorem claimAirdropGame_lose (info : MessageInfo) (pg : List String)
    (rg : String) (s : ContractState) (bin : Nat) (gh gBuf : List Nat)
    (hbid : mGet s.bids info.sender = some bin)
    (hfoldG : foldProofs (sha256 (strBytes (info.sender ++ Nat.repr bin)))
      pg = .ok gh)
    (hdecG : hexDecode32 rg = some gBuf)
    (hlose : gBuf ≠ gh) :
    claimAirdropGame info pg rg s = .ok (s.claimPrize, s.winners) := by
  simp [claimAirdropGame, hbid, hfoldG, hexToBytes32, hdecG, hlose]

theorem claimAirdropGame_skip (info : MessageInfo) (pg : List String)
    (rg : String) (s : ContractState)
    (hbid : mGet s.bids info.sender = none) :
    claimAirdropGame info pg rg s = .ok (s.claimPrize, s.winners) := by
  simp [claimAirdropGame, hbid]

/-- C3: after the airdrop proof verifies in `claim_airdrop` — if the sender
has a live bid and the game proof folds to the decoded game root, a
prize-claim entry with value `false` is recorded and the winners counter is
incremented; if the game proof folds to a different hash, the call still
succeeds and neither the prize-claim table nor the winners counter changes;
and with no live bid the game proof is never consulted: the outcome is the
same for every `proof_game` argument, again leaving the prize-claim table
and winners counter unchanged. -/
theorem C3_game_branch (env : Env) (info : MessageInfo) (amount : Nat)
    (pa pg : List String) (s : ContractState) (root rootG : String)
    (rootBuf hfinal : List Nat) (ca : Nat)
    (hstage : checkIfValidStage env s.stageClaimAirdrop "claim airdrop" =
      .ok ())
    (hnc : mGet s.claimAirdrop info.sender = none)
    (hrootA : s.merkleRootAirdrop = some root)
    (hrootG : s.merkleRootGame = some rootG)
    (hdec : hexDecode32 root = some rootBuf)
    (hfold : foldProofs (sha256 (strBytes (info.sender ++ Nat.repr amount)))
      pa = .ok hfinal)
    (hmatch : rootBuf = hfinal)
    (hca : s.claimedAirdropAmount = some ca)
    (hov : ca + amount < 2 ^ 128) :
    (∀ (bin : Nat) (gh gBuf : List Nat),
      mGet s.bids info.sender = some bin →
      foldProofs (sha256 (strBytes (info.sender ++ Nat.repr bin))) pg =
        .ok gh →
      hexDecode32 rootG = some gBuf → gBuf = gh →
      s.winners + 1 < 2 ^ 128 →
      executeClaimAirdrop env info amount pa pg s = .ok
        ({ s with claimPrize := mSet s.claimPrize info.sender false,
                  winners := s.winners + 1,
                  claimAirdrop := mSet s.claimAirdrop info.sender true,
                  claimedAirdropAmount := some (ca + amount) },
         [.cw20Transfer s.config.cw20TokenAddress info.sender amount])) ∧
    (∀ (bin : Nat) (gh gBuf : List Nat),
      mGet s.bids info.sender = some bin →
      foldProofs (sha256 (strBytes (info.sender ++ Nat.repr bin))) pg =
        .ok gh →
      hexDecode32 rootG = some gBuf → gBuf ≠ gh →
      executeClaimAirdrop env info amount pa pg s = .ok
        ({ s with claimPrize := s.claimPrize,
                  winners := s.winners,
                  claimAirdrop := mSet s.claimAirdrop info.sender true,
                  claimedAirdropAmount := some (ca + amount) },
         [.cw20Transfer s.config.cw20TokenAddress info.sender amount])) ∧
    (mGet s.bids info.sender = none →
      ∀ pg' : List String,
      executeClaimAirdrop env info amount pa pg' s = .ok
        ({ s with claimPrize := s.claimPrize,
                  winners := s.winners,
                  claimAirdrop := mSet s.claimAirdrop info.sender true,
                  claimedAirdropAmount := some (ca + amount) },
         [.cw20Transfer s.config.cw20TokenAddress info.sender amount])) := by
  refine ⟨?_, ?_, ?_⟩
  · intro bin gh gBuf hbid hfoldG hdecG hwin hovw
    simp only [executeClaimAirdrop, hstage, hnc, Option.isSome_none,
      Bool.false_eq_true, if_false, loadItem, hrootA, hrootG, hfold,
      hexToBytes32, hdec, if_neg (not_not_intro hmatch),
      claimAirdropGame_win info pg rootG s bin gh gBuf hbid hfoldG hdecG
        hwin hovw, hca, add128, if_pos hov]
  · intro bin gh gBuf hbid hfoldG hdecG hlose
    simp only [executeClaimAirdrop, hstage, hnc, Option.isSome_none,
      Bool.false_eq_true, if_false, loadItem, hrootA, hrootG, hfold,
      hexToBytes32, hdec, if_neg (not_not_intro hmatch),
      claimAirdropGame_lose info pg rootG s bin gh gBuf hbid hfoldG hdecG
        hlose, hca, add128, if_pos hov]
  · intro hbid pg'
    simp only [executeClaimAirdrop, hstage, hnc, Option.isSome_none,
      Bool.false_eq_true, if_false, loadItem, hrootA, hrootG, hfold,
      hexToBytes32, hdec, if_neg (not_not_intro hmatch),
      claimAirdropGame_skip info pg' rootG s hbid, hca, add128,
      if_pos hov]

end Wasmgame

namespace Wasmgame

/-- Variant of `wgS2` whose bid is on bin 2, so the committed game leaf
`("addr0001", 1)` does not match. -/
def wgS2b : ContractState := { wgS2 with bids := [("addr0001", 2)] }

/-- Variant of `wgS2` with no live bid. -/
def wgS2c : ContractState := { wgS2 with bids := [] }

/-- Witness for C3: at the concrete post-registration states, a matching
game proof records a winner, a bid on the wrong bin still claims the airdrop
with no winner record, and with no bid the call succeeds for an arbitrary
junk `proof_game` argument. -/
theorem C3_witness :
    executeClaimAirdrop wgEnvCA wgPlayerInf0 7 [] [] wgS2 = .ok
      ({ wgS2 with claimPrize := mSet wgS2.claimPrize "addr0001" false,
                   winners := wgS2.winners + 1,
                   claimAirdrop := mSet wgS2.claimAirdrop "addr0001" true,
                   claimedAirdropAmount := some (0 + 7) },
       [.cw20Transfer "token0000" "addr0001" 7]) ∧
    executeClaimAirdrop wgEnvCA wgPlayerInf0 7 [] [] wgS2b = .ok
      ({ wgS2b with claimPrize := wgS2b.claimPrize,
                    winners := wgS2b.winners,
                    claimAirdrop := mSet wgS2b.claimAirdrop "addr0001" true,
                    claimedAirdropAmount := some (0 + 7) },
       [.cw20Transfer "token0000" "addr0001" 7]) ∧
    executeClaimAirdrop wgEnvCA wgPlayerInf0 7 [] ["nonhex"] wgS2c = .ok
      ({ wgS2c with claimPrize := wgS2c.claimPrize,
                    winners := wgS2c.winners,
                    claimAirdrop := mSet wgS2c.claimAirdrop "addr0001" true,
                    claimedAirdropAmount := some (0 + 7) },
       [.cw20Transfer "token0000" "addr0001" 7]) :=
  ⟨(C3_game_branch wgEnvCA wgPlayerInf0 7 [] [] wgS2 wgRootAirdrop wgRootGame
      ((hexDecode32 wgRootAirdrop).getD [])
      (sha256 (strBytes ("addr0001" ++ Nat.repr 7))) 0
      rfl rfl rfl rfl rfl rfl (by decide) rfl (by decide)).1
    1 (sha256 (strBytes ("addr0001" ++ Nat.repr 1)))
    ((hexDecode32 wgRootGame).getD []) rfl rfl rfl (by decide) (by decide),
   (C3_game_branch wgEnvCA wgPlayerInf0 7 [] [] wgS2b wgRootAirdrop wgRootGame
      ((hexDecode32 wgRootAirdrop).getD [])
      (sha256 (strBytes ("addr0001" ++ Nat.repr 7))) 0
      rfl rfl rfl rfl rfl rfl (by decide) rfl (by decide)).2.1
    2 (sha256 (strBytes ("addr0001" ++ Nat.repr 2)))
    ((hexDecode32 wgRootGame).getD []) rfl rfl rfl (by decide),
   (C3_game_branch wgEnvCA wgPlayerInf0 7 [] ["nonhex"] wgS2c wgRootAirdrop
      wgRootGame ((hexDecode32 wgRootAirdrop).getD [])
      (sha256 (strBytes ("addr0001" ++ Nat.repr 7))) 0
      rfl rfl rfl rfl rfl rfl (by decide) rfl (by decide)).2.2
    rfl ["nonhex"]⟩

end Wasmgame

namespace Wasmgame

/-- C4: for a recorded, still-unpaid winner during the claim-prize stage,
`claim_prize` pays `total_ticket_prize / winners_count` in the ticket's
native denomination and `total_airdrop_game_amount / winners_count` in the
token (both truncating divisions), marks the entry paid, and adds the two
shares to `claimed_prize_amount` and `claimed_airdrop_amount` respectively,
emitting exactly those two transfers. -/
theorem C4_claim_prize_division (env : Env) (info : MessageInfo)
    (s : ContractState) (g ca cp : Nat)
    (hstage : checkIfValidStage env s.stageClaimPrize "claim prize" = .ok ())
    (helig : mGet s.claimPrize info.sender = some false)
    (hg : s.totalAirdropGameAmount = some g)
    (hca : s.claimedAirdropAmount = some ca)
    (hcp : s.claimedPrizeAmount = some cp)
    (hw : s.winners ≠ 0)
    (hov1 : ca + g / s.winners < 2 ^ 128)
    (hov2 : cp + s.totalTicketPrize / s.winners < 2 ^ 128) :
    executeClaimPrize env info s = .ok
      ({ s with claimPrize := mSet s.claimPrize info.sender true,
                claimedAirdropAmount := some (ca + g / s.winners),
                claimedPrizeAmount :=
                  some (cp + s.totalTicketPrize / s.winners) },
       [.bankSend info.sender s.ticketPrice.denom
          (s.totalTicketPrize / s.winners),
        .cw20Transfer s.config.cw20TokenAddress info.sender
          (g / s.winners)]) := by
  simp only [executeClaimPrize, hstage, helig, loadItem, hg, hca, hcp,
    divUnwrap, if_neg hw, add128, if_pos hov1, if_pos hov2]

/-- A two-winner state for the numeric scenario of C4: ticket pool 30,
game airdrop total 1,000,000, two recorded unpaid winners. -/
def wgPrizeS : ContractState :=
  { wgS2 with
      winners := 2
      totalTicketPrize := 30
      bids := [("addr0001", 1), ("addr0002", 1)]
      totalAirdropGameAmount := some 1000000
      claimPrize := [("addr0001", false), ("addr0002", false)] }

/-- The state after the first winner's prize claim. -/
def wgPrizeS1 : ContractState :=
  { wgPrizeS with
      claimPrize := mSet wgPrizeS.claimPrize "addr0001" true
      claimedAirdropAmount := some (0 + 1000000 / 2)
      claimedPrizeAmount := some (0 + 30 / 2) }

/-- Witness for C4: with two winners, `total_ticket_prize = 30` and
`total_airdrop_game_amount = 1_000_000`, each of the two winners' claims
transfers 15 native coins and 500,000 tokens. -/
theorem C4_witness :
    executeClaimPrize wgEnvCP wgPlayerInf0 wgPrizeS = .ok
      (wgPrizeS1,
       [.bankSend "addr0001" "ujuno" 15,
        .cw20Transfer "token0000" "addr0001" 500000]) ∧
    executeClaimPrize wgEnvCP { sender := "addr0002", funds := [] }
        wgPrizeS1 = .ok
      ({ wgPrizeS1 with
          claimPrize := mSet wgPrizeS1.claimPrize "addr0002" true,
          claimedAirdropAmount := some (500000 + 1000000 / 2),
          claimedPrizeAmount := some (15 + 30 / 2) },
       [.bankSend "addr0002" "ujuno" 15,
        .cw20Transfer "token0000" "addr0002" 500000]) := by
  constructor
  · have h := C4_claim_prize_division wgEnvCP wgPlayerInf0 wgPrizeS
      1000000 0 0 rfl rfl rfl rfl rfl (by decide) (by decide) (by decide)
    exact h
  · have h := C4_claim_prize_division wgEnvCP
      { sender := "addr0002", funds := [] } wgPrizeS1
      1000000 500000 15 rfl rfl rfl rfl rfl (by decide) (by decide)
      (by decide)
    exact h

end Wasmgame
